import Mathlib

/-!
Shallow embedding of two Wesnoth GUI translation units:
`src/gui/dialogs/preferences_dialog.cpp` and
`src/gui/widgets/unit_preview_pane.cpp`, together with proofs about the
string-building and filtering routines they contain.

Strings are modelled by Lean `String`; C++ `int` values that can be
negative are modelled by `Int`, counts and indices by `Nat`.  GUI widget
state is modelled by explicit records.  Collaborator functions from
outside the two files (translation, colour scales, the preferences
store, `add_acquaintance`) are taken as parameters or modelled from the
specification, as noted in the doc comments.
-/

set_option autoImplicit false

namespace Wesnoth

/-! ### Generic string helpers -/

/-- The space character, written via its code point. -/
def spaceChar : Char := Char.ofNat 32

/-- Boolean test that `n` is an initial segment of `h` (character lists). -/
def leadsWith : List Char → List Char → Bool
  | [], _ => true
  | _ :: _, [] => false
  | a :: n, b :: h => a = b && leadsWith n h

/-- Boolean test that the character list `n` occurs contiguously inside `h`. -/
def occursIn (n : List Char) : List Char → Bool
  | [] => leadsWith n []
  | c :: t => leadsWith n (c :: t) || occursIn n t

/-- Splits a character list at space characters, dropping empty tokens;
`acc` holds the current token reversed.
Modelled from the spec: the body of the collaborator `utils::split` is not
part of this excerpt; the call site passes the single delimiter `' '`, and
the spec speaks of the whitespace-separated words of the filter text. -/
def wordsAux : List Char → List Char → List (List Char)
  | [], acc => if acc = [] then [] else [acc.reverse]
  | c :: t, acc =>
    if c = spaceChar then
      if acc = [] then wordsAux t [] else acc.reverse :: wordsAux t []
    else
      wordsAux t (c :: acc)

/-- The list of words of a string, split at spaces. -/
def wordsOf (s : String) : List (List Char) := wordsAux s.data []

/-- Case-insensitive substring search.
Modelled from the spec: the body of the collaborator `translation::ci_search`
is not part of this excerpt; the spec says each word must occur
case-insensitively in the description. -/
def ci_search (haystack : String) (needle : List Char) : Bool :=
  occursIn (needle.map Char.toLower) (haystack.data.map Char.toLower)

/-! ### Advanced preferences: combo option initial selection (C4)

From `preferences_dialog::initialize_callbacks`, `avp::avd_type::COMBO`
branch: `std::distance(option_ids.begin(), std::find(...))` followed by the
out-of-range reset to `0`. -/

/-- `std::distance(l.begin(), std::find(l.begin(), l.end(), v))`: index of the
first occurrence of `v` in `l`, or `l.length` when `v` does not occur. -/
def find_dist {α : Type} [DecidableEq α] : List α → α → Nat
  | [], _ => 0
  | x :: rest, v => if x = v then 0 else 1 + find_dist rest v

/-- The initially selected menu index of a combo-type advanced preference.
`stored` is the preference value found in the store (if any), `dflt` the
configured default; `get(pref_name, default)` is `stored.getD dflt`. -/
def combo_initial_selection (option_ids : List String) (stored : Option String)
    (dflt : String) : Int :=
  let value := stored.getD dflt
  let selected : Int := find_dist option_ids value
  if selected < 0 ∨ selected ≥ (option_ids.length : Int) then 0 else selected

/-! ### Unit preview pane activation (C5)

From `unit_preview_pane::set_active / get_active / get_state`. -/

/-- The mutable state of a `unit_preview_pane` that its activation interface
could conceivably touch: the remembered unit type and the image mods. -/
structure unit_preview_pane where
  current_type : Option String
  image_mods : String
deriving DecidableEq

/-- `unit_preview_pane::set_active`: the body is `/* DO NOTHING */`. -/
def set_active (_active : Bool) (s : unit_preview_pane) : unit_preview_pane := s

/-- `unit_preview_pane::get_active`: always `true`. -/
def get_active (_s : unit_preview_pane) : Bool := true

/-- The `styled_widget` state constant `ENABLED` (first enumerator). -/
def ENABLED : Nat := 0

/-- `unit_preview_pane::get_state`: always `ENABLED`. -/
def get_state (_s : unit_preview_pane) : Nat := ENABLED

/-! ### Unit preview pane movement-cost tooltip (C2)

From `get_mp_tooltip` in `unit_preview_pane.cpp`.  The encountered-terrain
set and the terrain data are collaborators; the tooltip body iterates over
the resulting `terrain_moves` set, modelled as a list of (name, moves)
pairs.  The red-to-green colour scale is a collaborator, taken as a
parameter. -/

/-- `font::unicode_bullet` (U+2022). -/
def unicode_bullet : String := "\u2022"

/-- `font::unicode_figure_dash` (U+2012). -/
def unicode_figure_dash : String := "\u2012"

/-- `font::unicode_en_dash` (U+2013). -/
def unicode_en_dash : String := "\u2013"

/-- The horizontal black hexagon character (U+2B23). -/
def hexagonChar : Char := Char.ofNat 0x2B23

/-- One movement-hex glyph pair: hexagon plus zero-width space (U+200B). -/
def hexPair : String := "\u2B23\u200B"

/-- `n` repetitions of the hexagon/zero-width-space pair, as emitted by the
`for(int i = 0; i < movement_hexes_per_turn; ++i)` loop. -/
def hex_glyphs : Nat → String
  | 0 => ""
  | n + 1 => hexPair ++ hex_glyphs n

/-- The cost figure of one terrain line of the movement tooltip:
figure dash, parenthesised number, or plain number. -/
def mp_cost_str (total_movement moves : Nat) : String :=
  let cannot_move := total_movement < moves
  if cannot_move ∧ total_movement + 5 < moves then unicode_figure_dash
  else if cannot_move then "(" ++ toString moves ++ ")"
  else toString moves

/-- The hexagon glyphs appended after the cost figure:
`total_movement / moves` pairs when `moves` is nonzero, nothing otherwise. -/
def mp_hex_str (total_movement moves : Nat) : String :=
  if moves ≠ 0 then " " ++ hex_glyphs (total_movement / moves) else ""

/-- One full terrain line of the movement tooltip. -/
def mp_entry (name color : String) (total_movement moves : Nat) : String :=
  "\n" ++ unicode_bullet ++ " " ++ name ++ ": " ++
    "<span color=\x27" ++ color ++ "\x27>" ++
    mp_cost_str total_movement moves ++ mp_hex_str total_movement moves ++
    "</span>"

/-- `get_mp_tooltip`: header plus one line per listed terrain. -/
def get_mp_tooltip (total_movement : Nat) (terrain_moves : List (String × Nat))
    (colorOf : Nat → String) : String :=
  "<big>" ++ "Movement Costs:" ++ "</big>" ++
    String.join (terrain_moves.map
      (fun tm => mp_entry tm.1 (colorOf tm.2) total_movement tm.2))

/-- The number of hexagon glyphs in a string. -/
def hex_count (s : String) : Nat := s.data.countP (fun c => c = hexagonChar)

/-! ### Unit preview pane hitpoints/resistances tooltip (C3)

From `get_hp_tooltip` in `unit_preview_pane.cpp`.  `types` is the damage
table, `get dt is_attacker` the queried resistance, `tr` the `dgettext`
translation, `sp` `utils::signed_percent` and `colorOf`
`unit_helper::resistance_color` — the latter three are collaborators taken
as parameters. -/

/-- A complete `<span color='…'>…</span>` fragment. -/
def span_color_str (color inner : String) : String :=
  "<span color=\x27" ++ color ++ "\x27>" ++ inner ++ "</span>"

/-- One line of the resistances table for damage type `dt`. -/
def res_line (tr : String → String) (sp : Int → String) (colorOf : Int → String)
    (get : String → Bool → Int) (dt : String) : String :=
  let res_att : Int := 100 - get dt true
  let res_def : Int := 100 - get dt false
  tr dt ++ ": " ++
    (if res_att = res_def then
      span_color_str (colorOf res_def) ("\t" ++ sp res_def)
    else
      span_color_str (colorOf res_att) ("\t" ++ sp res_att) ++ "/" ++
        span_color_str (colorOf res_def) (sp res_def))

/-- The `att_def_diff` flag, accumulated over the loop. -/
def att_def_diff_flag (get : String → Bool → Int) (types : List String) : Bool :=
  types.foldl
    (fun acc dt => acc || decide ((100 - get dt true : Int) ≠ 100 - get dt false))
    false

/-- The header of the resistances tooltip, with the `(Att / Def)` marker
present exactly when the flag is set. -/
def hp_header (diff : Bool) : String :=
  "<big>" ++ "Resistances: " ++ "</big>" ++ (if diff then "(Att / Def)" else "")

/-- `get_hp_tooltip`: header plus one bulleted line per damage type. -/
def get_hp_tooltip (types : List String) (get : String → Bool → Int)
    (tr : String → String) (sp : Int → String) (colorOf : Int → String) : String :=
  hp_header (att_def_diff_flag get types) ++
    String.join (types.map
      (fun dt => "\n" ++ unicode_bullet ++ " " ++ res_line tr sp colorOf get dt))

/-! ### Accelerated speed slider (C8)

From the `preferences_dialog` constructor (`accl_speeds_` initializer) and
the `accl_load` / `accl_save` lambdas of `initialize_callbacks`. -/

/-- The fixed list of acceleration factors `accl_speeds_`.  The C++ doubles
0.25 … 16 are all exact binary fractions, modelled by the same rationals. -/
def accl_speeds : List ℚ := [1/4, 1/2, 3/4, 1, 5/4, 3/2, 7/4, 2, 3, 4, 8, 16]

/-- The slice of the preferences store that the accelerated-speed slider
touches.  Modelled from the spec: the preferences storage subsystem
(`preferences::turbo_speed` / `set_turbo_speed`) is a pre-existing
collaborator outside this excerpt; it stores and returns a value. -/
structure prefs_store where
  turbo : ℚ
deriving DecidableEq

/-- `preferences::set_turbo_speed`.  Modelled from the spec (see
`prefs_store`). -/
def set_turbo_speed (v : ℚ) (s : prefs_store) : prefs_store := { s with turbo := v }

/-- `preferences::turbo_speed`.  Modelled from the spec (see
`prefs_store`). -/
def turbo_speed (s : prefs_store) : ℚ := s.turbo

/-- The `accl_save` lambda: `set_turbo_speed(accl_speeds_[i])`. -/
def accl_save (i : Nat) (s : prefs_store) : prefs_store :=
  set_turbo_speed (accl_speeds.getD i 0) s

/-- The `accl_load` lambda:
`std::distance(begin, std::find(begin, end, turbo_speed()))`. -/
def accl_load (s : prefs_store) : Nat :=
  find_dist accl_speeds (turbo_speed s)

/-! ### Friends list row selection (C9)

From `preferences_dialog::on_friends_list_select`. -/

/-- An acquaintance record, as used by the friends-list code: nickname,
status (`"friend"` or `"ignore"`) and free-form notes. -/
structure acquaintance where
  nick : String
  status : String
  notes : String
deriving DecidableEq

/-- `preferences_dialog::on_friends_list_select`.  `acqs` is the
acquaintance map (an association list ordered as the `std::map` iterates),
`sel` the selected listbox row, `textbox` the current textbox text.  The
result is the new textbox text; the element access
(`std::advance(who, sel)`) is modelled by the checked `List.get?`, so a
`none` result would mean an out-of-bounds access. -/
def on_friends_list_select (acqs : List (String × acquaintance)) (sel : Int)
    (textbox : String) : Option String :=
  let num_friends : Int := acqs.length
  if sel < 0 ∨ sel ≥ num_friends then
    some textbox
  else
    (acqs.get? sel.toNat).map (fun who => who.2.nick ++ " " ++ who.2.notes)

/-! ### Hotkey list and hotkey filter (C1, C6)

From `preferences_dialog::setup_hotkey_list` and
`preferences_dialog::hotkey_filter_callback`. -/

/-- A hotkey command as the dialog sees it: identifier, translated
description, hidden flag, display category (an enumerator, modelled by
`Nat`) and the three scope flags. -/
structure hotkey_command where
  id : String
  description : String
  hidden : Bool
  category : Nat
  scope_game : Bool
  scope_editor : Bool
  scope_mainmenu : Bool
deriving DecidableEq

/-- The category-scanning loop of `hotkey_filter_callback`: the position of
the first occurrence of `cat` in the category list, or its length when
absent. -/
def cat_index_of : List Nat → Nat → Nat
  | [], _ => 0
  | c :: rest, cat => if cat = c then 0 else 1 + cat_index_of rest cat

/-- The `toggle_states.none()` fix-up at the top of
`hotkey_filter_callback`: nothing selected means all categories shown, so
the bitset is complemented to all ones. -/
def effective_toggles (toggle_states : List Bool) : List Bool :=
  if toggle_states.all (fun b => !b)
  then toggle_states.map (fun _ => true)
  else toggle_states

/-- The loop body of `hotkey_filter_callback` for one hotkey: the text
filter (`found`), the category scan (`cat_index`), and the final bit. -/
def hotkey_row_shown (visible_categories : List Nat) (ts : List Bool)
    (text : String) (hk : hotkey_command) : Bool :=
  let found := if text = "" then true
               else (wordsOf text).all (fun w => ci_search hk.description w)
  let cat_index := cat_index_of visible_categories hk.category
  if cat_index < ts.length ∧ found = true then ts.getD cat_index false
  else false

/-- `preferences_dialog::hotkey_filter_callback`.  Arguments: the visible
hotkeys, the visible categories (as the `std::set` iterates), the toggle
states of the category menu, and the filter text.  Result: the row-shown
bitset passed to `set_row_shown`. -/
def hotkey_filter_callback (visible_hotkeys : List hotkey_command)
    (visible_categories : List Nat) (toggle_states : List Bool)
    (text : String) : List Bool :=
  visible_hotkeys.map
    (hotkey_row_shown visible_categories (effective_toggles toggle_states) text)

/-- The translated game-scope initial cell text `gh`. -/
def gh (tr : String → String) : String :=
  "<span color=\x27#0f0\x27>" ++ tr "game_hotkeys^G" ++ "</span>"

/-- The translated editor-scope initial cell text `eh`. -/
def eh (tr : String → String) : String :=
  "<span color=\x27#0f0\x27>" ++ tr "editor_hotkeys^E" ++ "</span>"

/-- The translated main-menu-scope initial cell text `mh`. -/
def mh (tr : String → String) : String :=
  "<span color=\x27#0f0\x27>" ++ tr "mainmenu_hotkeys^M" ++ "</span>"

/-- One row of the hotkey listbox: the six cell labels. -/
structure hotkey_row where
  img_icon : String
  lbl_desc : String
  lbl_hotkey : String
  lbl_is_game : String
  lbl_is_editor : String
  lbl_is_mainmenu : String
deriving DecidableEq

/-- The row data built for one hotkey command in the `setup_hotkey_list`
loop.  `fileExists` models `filesystem::file_exists`, `tr` the translation,
`names` `hotkey::get_names`, `path` `game_config::path`. -/
def mk_hotkey_row (fileExists : String → Bool) (tr names : String → String)
    (path : String) (c : hotkey_command) : hotkey_row :=
  { img_icon :=
      if fileExists (path ++ "/images/icons/action/" ++ c.id ++ "_25.png")
      then "icons/action/" ++ c.id ++ "_25.png~CROP(3,3,18,18)"
      else "",
    lbl_desc := c.description,
    lbl_hotkey := names c.id,
    lbl_is_game := if c.scope_game then gh tr else "",
    lbl_is_editor := if c.scope_editor then eh tr else "",
    lbl_is_mainmenu := if c.scope_mainmenu then mh tr else "" }

/-- The rows added by `setup_hotkey_list`: one per command, hidden commands
skipped by the `continue`. -/
def setup_hotkey_list (fileExists : String → Bool) (tr names : String → String)
    (path : String) : List hotkey_command → List hotkey_row
  | [] => []
  | c :: rest =>
    if c.hidden then setup_hotkey_list fileExists tr names path rest
    else mk_hotkey_row fileExists tr names path c ::
      setup_hotkey_list fileExists tr names path rest

/-! ### Unit XP rendering in `set_displayed_unit` (C7)

From `unit_preview_pane::set_displayed_unit`, the minimal details label
(lines building `str`) and the `hp_xp_mp` tree node (`unit_xp`). -/

/-- The slice of a game unit read by the XP rendering and the minimal
details label.  Colours and the alignment description are produced by
collaborators and passed in separately. -/
structure unit where
  name : String
  type_name : String
  level : Nat
  experience : Nat
  max_experience : Nat
  hitpoints : Nat
  max_hitpoints : Nat
  can_advance : Bool
  trait_names : List String
deriving DecidableEq

/-- The opening markup emitted by `font::span_color`. -/
def span_color_open (color : String) : String :=
  "<span color=\x27" ++ color ++ "\x27>"

/-- The translated `"Lvl $lvl"` string. -/
def lvl_str (level : Nat) : String := "Lvl " ++ toString level

/-- Everything the minimal details label writes before its XP span. -/
def details_minimal_lead (u : unit) (hpColor typeColor alignDesc : String) : String :=
  "<span size=\x27large\x27>" ++ (if u.name ≠ "" then u.name else " ") ++ "</span>" ++ "\n" ++
  span_color_open typeColor ++ u.type_name ++ "</span>" ++ "\n" ++
  lvl_str u.level ++ "\n" ++
  alignDesc ++ "\n" ++
  String.intercalate ", " u.trait_names ++ "\n" ++
  span_color_open hpColor ++ "HP: " ++ toString u.hitpoints ++ "/" ++
    toString u.max_hitpoints ++ "</span>" ++ "\n"

/-- The minimal details label of `set_displayed_unit`, with the XP text
written inline by the `if(u.can_advance())` statement. -/
def details_minimal_label (u : unit) (hpColor xpColor typeColor alignDesc : String) : String :=
  details_minimal_lead u hpColor typeColor alignDesc ++
  span_color_open xpColor ++ "XP: " ++
  (if u.can_advance then
    toString u.experience ++ "/" ++ toString u.max_experience
  else unicode_en_dash) ++
  "</span>"

/-- The `unit_xp` string computed for the details tree node. -/
def unit_xp (u : unit) : String :=
  if u.can_advance then toString u.experience ++ "/" ++ toString u.max_experience
  else unicode_en_dash

/-- The label of the `xp` cell of the `hp_xp_mp` tree node. -/
def tree_xp_label (u : unit) (xpColor : String) : String :=
  "<small>" ++ span_color_open xpColor ++ "<b>" ++ "XP: " ++ "</b>" ++
    unit_xp u ++ "</span>" ++ " | </small>"

/-! ### Adding a friends-list entry (C10)

From `preferences_dialog::add_friend_list_entry` and
`preferences_dialog::get_friends_list_row_data`. -/

/-- One friends-listbox row: the labels of the `friend_icon`,
`friend_name` and `friend_status` cells. -/
structure friend_row where
  friend_icon : String
  friend_name : String
  friend_status : String
deriving DecidableEq

/-- `preferences_dialog::get_friends_list_row_data` (translations of
`"friend"`/`"ignored"` taken literally). -/
def get_friends_list_row_data (entry : acquaintance) : friend_row :=
  let image := if entry.status = "ignore" then "ignore.png" else "friend.png"
  let descriptor := if entry.status = "ignore" then "ignored" else "friend"
  let notes := if entry.notes ≠ ""
               then " <small>(" ++ entry.notes ++ ")</small>"
               else ""
  { friend_icon := "misc/status-" ++ image,
    friend_name := entry.nick ++ notes,
    friend_status := "<small>" ++ descriptor ++ "</small>" }

/-- Splits at the first space: `(s, none)` when there is no space,
otherwise the part before it and the part after it. -/
def break_at_space : List Char → List Char × Option (List Char)
  | [] => ([], none)
  | c :: t =>
    if c = spaceChar then ([], some t)
    else
      let r := break_at_space t
      (c :: r.1, r.2)

/-- `username.find_first_of(' ')` handling: the entered username (text up
to the first space) and the reason (text after it, empty when no space). -/
def split_username (s : String) : String × String :=
  let r := break_at_space s.data
  (String.mk r.1, String.mk (r.2.getD []))

/-- The remove-and-replace loop: replaces the first row whose
`friend_name` label equals `nick`, leaving the rest unchanged. -/
def replace_row_by_nick (nick : String) (newRow : friend_row) :
    List friend_row → List friend_row
  | [] => []
  | r :: rest =>
    if r.friend_name = nick then newRow :: rest
    else r :: replace_row_by_nick nick newRow rest

/-- The state touched by `add_friend_list_entry`: the textbox text, the
acquaintance map, the friends-listbox rows and the transient message (if
one was shown). -/
structure friends_ui_state where
  textbox : String
  acqs : List (String × acquaintance)
  rows : List friend_row
  message : Option String
deriving DecidableEq

/-- `preferences_dialog::add_friend_list_entry`.  `add_acquaintance` is the
collaborator from the preferences subsystem, taken as a parameter.
Modelled from the spec: on success it yields the entry, whether it is new,
and the updated map; it rejects an invalid username with `none`, leaving
the map untouched. -/
def add_friend_list_entry
    (add_acquaintance : String → String → String →
      List (String × acquaintance) →
      Option (acquaintance × Bool × List (String × acquaintance)))
    (is_friend : Bool) (s : friends_ui_state) : friends_ui_state :=
  if s.textbox = "" then { s with message := some "No username specified" }
  else
    match add_acquaintance (split_username s.textbox).1
        (if is_friend then "friend" else "ignore")
        (split_username s.textbox).2 s.acqs with
    | none => { s with message := some "Invalid username" }
    | some (entry, added_new, acqs2) =>
      let newRow := get_friends_list_row_data entry
      { textbox := "",
        acqs := acqs2,
        rows := if added_new then s.rows ++ [newRow]
                else replace_row_by_nick entry.nick newRow s.rows,
        message := none }

/-! ### Lemmas about `find_dist` -/

theorem find_dist_of_mem {α : Type} [DecidableEq α] :
    ∀ (l : List α) (v : α), v ∈ l → find_dist l v = l.indexOf v ∧ find_dist l v < l.length := by
  intro l
  induction l with
  | nil => intro v hv; cases hv
  | cons x rest ih =>
    intro v hv
    by_cases hx : x = v
    · subst hx
      constructor
      · simp [find_dist, List.indexOf_cons_self]
      · simp [find_dist]
    · have hv' : v ∈ rest := by
        cases hv with
        | head => exact absurd rfl hx
        | tail _ h => exact h
      have := ih v hv'
      constructor
      · rw [List.indexOf_cons_ne _ hx]
        simp [find_dist, hx, this.1]
        omega
      · simp [find_dist, hx]
        omega

theorem find_dist_of_not_mem {α : Type} [DecidableEq α] :
    ∀ (l : List α) (v : α), v ∉ l → find_dist l v = l.length := by
  intro l
  induction l with
  | nil => intro v _; rfl
  | cons x rest ih =>
    intro v hv
    have hx : x ≠ v := fun h => hv (h ▸ List.mem_cons_self x rest)
    have hv' : v ∉ rest := fun h => hv (List.mem_cons_of_mem x h)
    simp [find_dist, hx, ih v hv']
    omega


/-- Claim C4: for a combo-type advanced preference, the initially selected
menu index is the position of the stored value (or, with nothing stored, the
configured default) within the choice ids, and it is reset to 0 when that
value does not occur among the choice ids. -/
theorem combo_initial_selection_spec (option_ids : List String)
    (stored : Option String) (dflt : String) :
    combo_initial_selection option_ids stored dflt =
      (if stored.getD dflt ∈ option_ids
       then (option_ids.indexOf (stored.getD dflt) : Int)
       else 0) := by
  unfold combo_initial_selection
  by_cases hmem : stored.getD dflt ∈ option_ids
  · obtain ⟨heq, hlt⟩ := find_dist_of_mem option_ids (stored.getD dflt) hmem
    simp only [hmem, if_true, heq]
    have h1 : ¬((option_ids.indexOf (stored.getD dflt) : Int) < 0) := by
      omega
    have h2 : ¬((option_ids.indexOf (stored.getD dflt) : Int) ≥ (option_ids.length : Int)) := by
      rw [← heq]
      omega
    simp [h1, h2]
  · have heq := find_dist_of_not_mem option_ids (stored.getD dflt) hmem
    simp only [hmem, if_false, heq]
    simp

/-- Claim C5: the unit preview pane is read-only with respect to activation:
`set_active` changes nothing, `get_active` returns `true`, and `get_state`
returns `ENABLED`, for every pane state and boolean. -/
theorem unit_preview_pane_activation_readonly (s : unit_preview_pane) (b : Bool) :
    set_active b s = s ∧ get_active s = true ∧ get_state s = ENABLED :=
  ⟨rfl, rfl, rfl⟩

theorem find_dist_getD {α : Type} [DecidableEq α] (d : α) :
    ∀ (l : List α) (i : Nat), l.Nodup → i < l.length → find_dist l (l.getD i d) = i := by
  intro l
  induction l with
  | nil => intro i _ hi; simp at hi
  | cons x rest ih =>
    intro i hnd hi
    rcases List.nodup_cons.mp hnd with ⟨hx, hnd'⟩
    cases i with
    | zero => simp [find_dist]
    | succ j =>
      have hj : j < rest.length := by simpa using hi
      have hmem : rest.getD j d ∈ rest := by
        rw [List.getD_eq_getElem rest d hj]
        exact List.getElem_mem hj
      have hne : x ≠ rest.getD j d := fun h => hx (h ▸ hmem)
      rw [List.getD_cons_succ]
      simp only [find_dist, hne, if_false]
      rw [ih j hnd' hj]
      omega

/-- Claim C8: the accelerated-speed save and load functions form a round
trip.  The speed list is duplicate-free, the store returns the value that
was set, and for every valid index `i`, `accl_save i` followed by
`accl_load` returns `i`. -/
theorem accl_save_load_round_trip (s : prefs_store) (v : ℚ) (i : Nat)
    (hi : i < accl_speeds.length) :
    turbo_speed (set_turbo_speed v s) = v ∧
    accl_speeds.Nodup ∧
    accl_load (accl_save i s) = i := by
  have hnd : accl_speeds.Nodup := by norm_num [accl_speeds, List.nodup_cons]
  refine ⟨rfl, hnd, ?_⟩
  show find_dist accl_speeds (accl_speeds.getD i 0) = i
  exact find_dist_getD 0 accl_speeds i hnd hi

/-- Witness for C8 at the concrete index 3 (speed factor 1). -/
theorem accl_save_load_round_trip_witness :
    accl_load (accl_save 3 { turbo := 1 }) = 3 :=
  (accl_save_load_round_trip { turbo := 1 } 0 3 (by decide)).2.2

/-- Claim C9: `on_friends_list_select` never accesses the acquaintance map
out of bounds (the result is always `some`), and for a selected row that is
negative or not less than the number of acquaintances it returns with the
textbox unchanged. -/
theorem on_friends_list_select_safe (acqs : List (String × acquaintance))
    (sel : Int) (textbox : String) :
    (on_friends_list_select acqs sel textbox).isSome = true ∧
    (sel < 0 ∨ sel ≥ (acqs.length : Int) →
      on_friends_list_select acqs sel textbox = some textbox) := by
  constructor
  · unfold on_friends_list_select
    by_cases hout : sel < 0 ∨ sel ≥ (acqs.length : Int)
    · simp [hout]
    · have h0 : 0 ≤ sel := by omega
      have hlt : sel < (acqs.length : Int) := by omega
      have hnat : sel.toNat < acqs.length := by omega
      simp only [hout, if_false]
      rw [List.get?_eq_get hnat]
      simp
  · intro hout
    unfold on_friends_list_select
    simp [hout]

/-- Witness for C9: with one acquaintance and row 5 selected, the textbox
text `"abc"` is kept. -/
theorem on_friends_list_select_safe_witness :
    on_friends_list_select [("ann", { nick := "ann", status := "friend", notes := "" })] 5 "abc" =
      some "abc" :=
  (on_friends_list_select_safe _ 5 "abc").2 (by decide)

/-! ### String lemmas -/

theorem string_append_ne_empty (a b : String) (ha : a ≠ "") : a ++ b ≠ "" := by
  intro h
  apply ha
  have hd := congrArg String.data h
  rw [String.data_append] at hd
  have h1 : a.data = [] := (List.append_eq_nil.mp hd).1
  apply String.ext
  rw [h1]

theorem hex_count_append (a b : String) :
    hex_count (a ++ b) = hex_count a + hex_count b := by
  simp [hex_count, String.data_append, List.countP_append]

theorem hex_count_hexPair : hex_count hexPair = 1 := by decide

theorem hex_count_glyphs : ∀ n : Nat, hex_count (hex_glyphs n) = n := by
  intro n
  induction n with
  | zero => decide
  | succ k ih =>
    show hex_count (hexPair ++ hex_glyphs k) = k + 1
    rw [hex_count_append, hex_count_hexPair, ih]
    omega

/-- Claim C2: in `get_mp_tooltip`, each listed terrain with movement cost
`moves` and unit maximum `total_movement` renders its cost as a figure dash
when `moves > total_movement + 5`, parenthesised when
`total_movement < moves ≤ total_movement + 5`, and plain otherwise; when
`moves` is nonzero, exactly `total_movement / moves` hexagon glyphs follow
the cost; the tooltip is the header plus one such line per terrain. -/
theorem get_mp_tooltip_spec (total_movement moves : Nat) (name color : String)
    (terrain_moves : List (String × Nat)) (colorOf : Nat → String) :
    mp_cost_str total_movement moves =
      (if total_movement + 5 < moves then unicode_figure_dash
       else if total_movement < moves then "(" ++ toString moves ++ ")"
       else toString moves) ∧
    hex_count (mp_hex_str total_movement moves) =
      (if moves = 0 then 0 else total_movement / moves) ∧
    mp_entry name color total_movement moves =
      "\n" ++ unicode_bullet ++ " " ++ name ++ ": " ++
        "<span color=\x27" ++ color ++ "\x27>" ++
        mp_cost_str total_movement moves ++ mp_hex_str total_movement moves ++
        "</span>" ∧
    get_mp_tooltip total_movement terrain_moves colorOf =
      "<big>Movement Costs:</big>" ++
        String.join (terrain_moves.map
          (fun tm => mp_entry tm.1 (colorOf tm.2) total_movement tm.2)) := by
  refine ⟨?_, ?_, rfl, ?_⟩
  · unfold mp_cost_str
    by_cases h1 : total_movement + 5 < moves
    · have h2 : total_movement < moves := by omega
      simp [h1, h2]
    · by_cases h2 : total_movement < moves
      · simp [h1, h2]
      · simp [h1, h2]
  · unfold mp_hex_str
    by_cases hm : moves = 0
    · simp [hm, hex_count]
    · simp only [hm, ne_eq, not_false_iff, if_true, if_false]
      rw [hex_count_append, hex_count_glyphs]
      have hsp : hex_count " " = 0 := by decide
      rw [hsp]
      omega
  · unfold get_mp_tooltip
    have hlit : ("<big>" : String) ++ "Movement Costs:" ++ "</big>" =
        "<big>Movement Costs:</big>" := by decide
    rw [hlit]

/-! ### Resistance tooltip lemmas -/

theorem foldl_or_any {α : Type} (p : α → Bool) :
    ∀ (l : List α) (b : Bool),
      l.foldl (fun acc x => acc || p x) b = (b || l.any p) := by
  intro l
  induction l with
  | nil => intro b; simp
  | cons x rest ih =>
    intro b
    rw [List.foldl_cons, ih, List.any_cons, Bool.or_assoc]

theorem att_def_diff_flag_eq_any (get : String → Bool → Int) (types : List String) :
    att_def_diff_flag get types =
      types.any (fun dt => decide (get dt true ≠ get dt false)) := by
  unfold att_def_diff_flag
  rw [foldl_or_any]
  rw [Bool.false_or]
  congr 1
  funext dt
  apply decide_eq_decide.mpr
  constructor
  · intro hne he
    exact hne (by rw [he])
  · intro hne he
    exact hne (by omega)

theorem marker_in_header_of_diff :
    occursIn "(Att / Def)".data (hp_header true).data = true := by decide

theorem marker_not_in_header_of_same :
    occursIn "(Att / Def)".data (hp_header false).data = false := by decide

/-- Claim C3: in `get_hp_tooltip`, each damage type displays
`100 - get dt is_attacker` for attack and defense, one value when they
agree and both with a slash when they differ, and the header contains the
`(Att / Def)` marker exactly when some damage type has differing values. -/
theorem get_hp_tooltip_spec (types : List String) (get : String → Bool → Int)
    (tr : String → String) (sp : Int → String) (colorOf : Int → String) :
    get_hp_tooltip types get tr sp colorOf =
      hp_header (att_def_diff_flag get types) ++
        String.join (types.map
          (fun dt => "\n" ++ unicode_bullet ++ " " ++ res_line tr sp colorOf get dt)) ∧
    (occursIn "(Att / Def)".data (hp_header (att_def_diff_flag get types)).data = true ↔
      ∃ dt ∈ types, get dt true ≠ get dt false) ∧
    ∀ dt : String,
      res_line tr sp colorOf get dt =
        tr dt ++ ": " ++
          (if get dt true = get dt false then
            span_color_str (colorOf (100 - get dt false)) ("\t" ++ sp (100 - get dt false))
          else
            span_color_str (colorOf (100 - get dt true)) ("\t" ++ sp (100 - get dt true)) ++
              "/" ++ span_color_str (colorOf (100 - get dt false)) (sp (100 - get dt false))) := by
  refine ⟨rfl, ?_, ?_⟩
  · rw [att_def_diff_flag_eq_any]
    cases hD : types.any (fun dt => decide (get dt true ≠ get dt false)) with
    | true =>
      apply iff_of_true marker_in_header_of_diff
      obtain ⟨dt, hmem, hdec⟩ := List.any_eq_true.mp hD
      exact ⟨dt, hmem, of_decide_eq_true hdec⟩
    | false =>
      constructor
      · intro hocc
        rw [marker_not_in_header_of_same] at hocc
        cases hocc
      · intro hex
        obtain ⟨dt, hmem, hne⟩ := hex
        have : types.any (fun dt => decide (get dt true ≠ get dt false)) = true :=
          List.any_eq_true.mpr ⟨dt, hmem, decide_eq_true hne⟩
        rw [hD] at this
        cases this
  · intro dt
    unfold res_line
    by_cases h : (100 - get dt true : Int) = 100 - get dt false
    · have h' : get dt true = get dt false := by omega
      simp [h, h']
    · have h' : ¬ get dt true = get dt false := fun he => h (by rw [he])
      simp [h, h']

/-- Claim C7: in `set_displayed_unit`, the XP statistic reads
`experience/max_experience` exactly when the unit can advance and is an
en dash otherwise, both in the minimal details label and in the details
tree node. -/
theorem set_displayed_unit_xp_spec (u : unit)
    (hpColor xpColor typeColor alignDesc : String) :
    details_minimal_label u hpColor xpColor typeColor alignDesc =
      details_minimal_lead u hpColor typeColor alignDesc ++
        span_color_open xpColor ++ "XP: " ++ unit_xp u ++ "</span>" ∧
    tree_xp_label u xpColor =
      "<small>" ++ span_color_open xpColor ++ "<b>" ++ "XP: " ++ "</b>" ++
        unit_xp u ++ "</span>" ++ " | </small>" ∧
    unit_xp u =
      (if u.can_advance then
        toString u.experience ++ "/" ++ toString u.max_experience
      else unicode_en_dash) :=
  ⟨rfl, rfl, rfl⟩

/-! ### Hotkey list lemmas -/

theorem gh_ne_empty (tr : String → String) : gh tr ≠ "" :=
  string_append_ne_empty _ _ (string_append_ne_empty _ _ (by decide))

theorem eh_ne_empty (tr : String → String) : eh tr ≠ "" :=
  string_append_ne_empty _ _ (string_append_ne_empty _ _ (by decide))

theorem mh_ne_empty (tr : String → String) : mh tr ≠ "" :=
  string_append_ne_empty _ _ (string_append_ne_empty _ _ (by decide))

/-- Claim C6: `setup_hotkey_list` adds exactly one row per non-hidden
hotkey command, and the game, editor and main-menu scope cells of a row
are non-empty exactly when the corresponding scope flag is set. -/
theorem setup_hotkey_list_spec (fileExists : String → Bool)
    (tr names : String → String) (path : String) (cmds : List hotkey_command) :
    setup_hotkey_list fileExists tr names path cmds =
      (cmds.filter (fun c => !c.hidden)).map (mk_hotkey_row fileExists tr names path) ∧
    (setup_hotkey_list fileExists tr names path cmds).length =
      (cmds.filter (fun c => !c.hidden)).length ∧
    ∀ c : hotkey_command,
      ((mk_hotkey_row fileExists tr names path c).lbl_is_game ≠ "" ↔ c.scope_game = true) ∧
      ((mk_hotkey_row fileExists tr names path c).lbl_is_editor ≠ "" ↔ c.scope_editor = true) ∧
      ((mk_hotkey_row fileExists tr names path c).lbl_is_mainmenu ≠ "" ↔ c.scope_mainmenu = true) := by
  have hrows : setup_hotkey_list fileExists tr names path cmds =
      (cmds.filter (fun c => !c.hidden)).map (mk_hotkey_row fileExists tr names path) := by
    induction cmds with
    | nil => rfl
    | cons c rest ih =>
      cases hc : c.hidden with
      | true => simp [setup_hotkey_list, hc, List.filter_cons, ih]
      | false => simp [setup_hotkey_list, hc, List.filter_cons, ih]
  refine ⟨hrows, ?_, ?_⟩
  · rw [hrows, List.length_map]
  · intro c
    refine ⟨?_, ?_, ?_⟩
    · cases hg : c.scope_game with
      | true => simp [mk_hotkey_row, hg, gh_ne_empty tr]
      | false => simp [mk_hotkey_row, hg]
    · cases hg : c.scope_editor with
      | true => simp [mk_hotkey_row, hg, eh_ne_empty tr]
      | false => simp [mk_hotkey_row, hg]
    · cases hg : c.scope_mainmenu with
      | true => simp [mk_hotkey_row, hg, mh_ne_empty tr]
      | false => simp [mk_hotkey_row, hg]

/-! ### Hotkey filter lemmas -/

theorem cat_index_of_lt {cats : List Nat} {cat : Nat} (h : cat ∈ cats) :
    cat_index_of cats cat < cats.length := by
  induction cats with
  | nil => cases h
  | cons c rest ih =>
    by_cases hc : cat = c
    · simp [cat_index_of, hc]
    · have h' : cat ∈ rest := by
        cases h with
        | head => exact absurd rfl hc
        | tail _ hh => exact hh
      have := ih h'
      simp only [cat_index_of, hc, if_false, List.length_cons]
      omega

theorem cat_index_of_get {cats : List Nat} {cat : Nat} (h : cat ∈ cats) :
    cats.getD (cat_index_of cats cat) 0 = cat := by
  induction cats with
  | nil => cases h
  | cons c rest ih =>
    by_cases hc : cat = c
    · simp [cat_index_of, hc]
    · have h' : cat ∈ rest := by
        cases h with
        | head => exact absurd rfl hc
        | tail _ hh => exact hh
      have hone : 1 + cat_index_of rest cat = cat_index_of rest cat + 1 :=
        Nat.add_comm _ _
      simp only [cat_index_of, hc, if_false, hone, List.getD_cons_succ]
      exact ih h'

theorem eq_cat_index_of {cats : List Nat} (hnd : cats.Nodup) {cat : Nat} {i : Nat}
    (hi : i < cats.length) (hget : cats.getD i 0 = cat) :
    i = cat_index_of cats cat := by
  induction cats generalizing i with
  | nil => simp at hi
  | cons c rest ih =>
    rcases List.nodup_cons.mp hnd with ⟨hc, hnd'⟩
    cases i with
    | zero =>
      simp only [List.getD_cons_zero] at hget
      simp [cat_index_of, hget.symm]
    | succ j =>
      have hj : j < rest.length := by simpa using hi
      have hget' : rest.getD j 0 = cat := by simpa using hget
      have hmem : cat ∈ rest := by
        rw [← hget', List.getD_eq_getElem rest 0 hj]
        exact List.getElem_mem hj
      have hcc : cat ≠ c := by
        intro he
        exact hc (he ▸ hmem)
      simp only [cat_index_of, hcc, if_false]
      rw [← ih hnd' hj hget']
      omega

theorem found_bool_iff (text : String) (hk : hotkey_command) :
    ((if text = "" then true
      else (wordsOf text).all (fun w => ci_search hk.description w)) = true) ↔
      (text = "" ∨ ∀ w ∈ wordsOf text, ci_search hk.description w = true) := by
  by_cases ht : text = ""
  · simp [ht]
  · simp [ht, List.all_eq_true]

theorem effective_toggles_length (toggle_states : List Bool) :
    (effective_toggles toggle_states).length = toggle_states.length := by
  unfold effective_toggles
  by_cases hall : toggle_states.all (fun b => !b)
  · simp [hall]
  · simp [hall]

theorem getD_effective_of_all (toggles : List Bool)
    (hall : toggles.all (fun b => !b) = true)
    (i : Nat) (hi : i < toggles.length) :
    (effective_toggles toggles).getD i false = true := by
  unfold effective_toggles
  rw [if_pos hall]
  have hi' : i < (toggles.map (fun _ => true)).length := by simpa using hi
  rw [List.getD_eq_getElem _ false hi']
  simp

theorem effective_toggles_of_not_all (toggles : List Bool)
    (hall : toggles.all (fun b => !b) = false) :
    effective_toggles toggles = toggles := by
  unfold effective_toggles
  simp [hall]

theorem hotkey_row_shown_iff (cats : List Nat) (ts : List Bool) (text : String)
    (hk : hotkey_command) (hci : cat_index_of cats hk.category < ts.length) :
    hotkey_row_shown cats ts text hk = true ↔
      ((text = "" ∨ ∀ w ∈ wordsOf text, ci_search hk.description w = true) ∧
       ts.getD (cat_index_of cats hk.category) false = true) := by
  unfold hotkey_row_shown
  by_cases hfb : (if text = "" then true
      else (wordsOf text).all (fun w => ci_search hk.description w)) = true
  · rw [if_pos ⟨hci, hfb⟩]
    have hfs := (found_bool_iff text hk).mp hfb
    constructor
    · intro hd; exact ⟨hfs, hd⟩
    · intro hd; exact hd.2
  · rw [if_neg (fun hcond => hfb hcond.2)]
    constructor
    · intro hfalse; cases hfalse
    · intro hd
      exact absurd ((found_bool_iff text hk).mpr hd.1) hfb

/-- Claim C1: in `hotkey_filter_callback`, row `h` is shown exactly when
the filter text is empty or every word of it occurs case-insensitively in
the hotkey's description, and the hotkey's category is among the
categories toggled on in the menu, where a menu with nothing toggled on
counts every category as toggled on. -/
theorem hotkey_filter_callback_shown_iff (hks : List hotkey_command)
    (cats : List Nat) (toggles : List Bool) (text : String)
    (h : Nat) (hh : h < hks.length)
    (hmem : hks[h].category ∈ cats)
    (hlen : toggles.length = cats.length)
    (hnd : cats.Nodup) :
    ((hotkey_filter_callback hks cats toggles text).getD h false = true ↔
      ((text = "" ∨ ∀ w ∈ wordsOf text, ci_search hks[h].description w = true) ∧
       (toggles.all (fun b => !b) = true ∨
        ∃ i, ∃ hi : i < cats.length,
          cats[i] = hks[h].category ∧ toggles.getD i false = true))) := by
  have hmap : (hotkey_filter_callback hks cats toggles text).getD h false =
      hotkey_row_shown cats (effective_toggles toggles) text hks[h] := by
    unfold hotkey_filter_callback
    rw [List.getD_eq_getElem?_getD, List.getElem?_map,
      List.getElem?_eq_getElem hh]
    rfl
  have hcil : cat_index_of cats hks[h].category < cats.length :=
    cat_index_of_lt hmem
  have hci : cat_index_of cats hks[h].category < (effective_toggles toggles).length := by
    rw [effective_toggles_length, hlen]
    exact hcil
  rw [hmap, hotkey_row_shown_iff cats _ text hks[h] hci]
  apply and_congr_right
  intro _
  cases hall : toggles.all (fun b => !b) with
  | true =>
    apply iff_of_true
    · exact getD_effective_of_all toggles hall _ (by rw [hlen]; exact hcil)
    · exact Or.inl rfl
  | false =>
    rw [effective_toggles_of_not_all toggles hall]
    simp only [Bool.false_eq_true, false_or]
    constructor
    · intro hd
      refine ⟨cat_index_of cats hks[h].category, hcil, ?_, hd⟩
      have := cat_index_of_get hmem
      rw [List.getD_eq_getElem _ 0 hcil] at this
      exact this
    · intro hex
      obtain ⟨i, hi, hgi, hti⟩ := hex
      have : i = cat_index_of cats hks[h].category := by
        apply eq_cat_index_of hnd hi
        rw [List.getD_eq_getElem _ 0 hi]
        exact hgi
      rw [← this]
      exact hti

/-- Witness for C1: a single visible hotkey of category 2, no category
toggled on, empty filter text: the row is shown. -/
theorem hotkey_filter_callback_shown_iff_witness :
    (hotkey_filter_callback
        [{ id := "quit", description := "Quit", hidden := false, category := 2,
           scope_game := true, scope_editor := false, scope_mainmenu := false }]
        [2] [false] "").getD 0 false = true :=
  (hotkey_filter_callback_shown_iff _ [2] [false] "" 0 (by decide) (by decide)
      rfl (by decide)).mpr ⟨Or.inl rfl, Or.inl (by decide)⟩

/-- Claim C10: `add_friend_list_entry` is atomic on error.  With an empty
textbox, or a username that `add_acquaintance` rejects, only the error
message is produced: the acquaintance map, the listbox rows and the
textbox text are unchanged.  The textbox is cleared exactly on success. -/
theorem add_friend_list_entry_error_atomic
    (add_acquaintance : String → String → String →
      List (String × acquaintance) →
      Option (acquaintance × Bool × List (String × acquaintance)))
    (is_friend : Bool) (s : friends_ui_state) :
    (s.textbox = "" →
      add_friend_list_entry add_acquaintance is_friend s =
        { s with message := some "No username specified" }) ∧
    (s.textbox ≠ "" →
      add_acquaintance (split_username s.textbox).1
          (if is_friend then "friend" else "ignore")
          (split_username s.textbox).2 s.acqs = none →
      add_friend_list_entry add_acquaintance is_friend s =
        { s with message := some "Invalid username" }) ∧
    (s.textbox ≠ "" →
      ((add_friend_list_entry add_acquaintance is_friend s).textbox = "" ↔
        add_acquaintance (split_username s.textbox).1
          (if is_friend then "friend" else "ignore")
          (split_username s.textbox).2 s.acqs ≠ none)) := by
  by_cases ht : s.textbox = ""
  · refine ⟨fun _ => ?_, fun hne => absurd ht hne, fun hne => absurd ht hne⟩
    unfold add_friend_list_entry
    rw [if_pos ht]
  · refine ⟨fun he => absurd he ht, fun _ hnone => ?_, fun _ => ?_⟩
    · unfold add_friend_list_entry
      rw [if_neg ht]
      simp only [hnone]
    · unfold add_friend_list_entry
      rw [if_neg ht]
      cases hA : add_acquaintance (split_username s.textbox).1
          (if is_friend then "friend" else "ignore")
          (split_username s.textbox).2 s.acqs with
      | none =>
        constructor
        · intro habs; exact absurd habs ht
        · intro hne; exact absurd rfl hne
      | some out =>
        obtain ⟨entry, added_new, acqs2⟩ := out
        constructor
        · intro _; exact fun he => Option.noConfusion he
        · intro _; rfl

/-- Witness for C10: a rejecting `add_acquaintance` and the textbox text
`"bob smith"`: only the error message is set. -/
theorem add_friend_list_entry_error_atomic_witness :
    add_friend_list_entry (fun _ _ _ _ => none) true
        { textbox := "bob smith", acqs := [], rows := [], message := none } =
      { textbox := "bob smith", acqs := [], rows := [],
        message := some "Invalid username" } :=
  (add_friend_list_entry_error_atomic (fun _ _ _ _ => none) true
      { textbox := "bob smith", acqs := [], rows := [], message := none }).2.1
    (by decide) rfl

end Wesnoth
